import Mathlib

/-!
Verification of the psutil issue-bot rule engine (`.github/workflows/issues.py`).

The bot is a single-file rule engine: it fetches one issue or pull request,
decides whether the event is a new item or a comment, infers labels from the
title and from template lines of the body, guards label addition against an
incompatibility table, and auto-replies/closes issues that report a missing
`Python.h` header.

The embedding below is shallow: text is `List Char` (Python `str`), the item's
label set is a `List String`, and the externally visible network calls
(add a label, create a comment, close the item) are collected in an explicit
trace of `Effect`s.  Python's case folding is modelled by ASCII
`Char.toLower`, and Python's substring operator `in` by `contains_sub`.

Two `log` calls of the source use a `%`-format with no conversion specifier
and therefore raise `TypeError` at run time: `"already has label" % (label)`
in the illogical-pair branch of `add_label.should_add`, and
`"new comment: \n" % issue.body` on the comment-event path of `main`.  A
raised `TypeError` propagates and aborts the run; it is modelled by `none`
for `should_add`/`add_label` and by the `crashed` outcome (which keeps the
label set and the effects already issued) for the run-level functions.
-/

namespace PsutilBot

/-- An externally visible side effect issued by the bot: a network call adding
a label to the item, a network call posting a comment, or a network call
setting the item's state to closed. -/
inductive Effect where
  | addCall : String → Effect
  | comment : String → Effect
  | close : Effect
deriving DecidableEq

/-- Python `text.lower()` restricted to ASCII case folding, on the character
list of the text. -/
def lower_chars (s : List Char) : List Char := s.map Char.toLower

/-- Python's substring operator: `contains_sub hay needle` models
`needle in hay` for strings. -/
def contains_sub (hay needle : List Char) : Bool :=
  hay.tails.any fun t => needle.isPrefixOf t

/-- `LABELS_MAP` from the source, as an association list in the dict's
insertion order.  The source extends the `"scripts"` entry at start-up with
the `.py` file names found in the repository's `scripts/` directory; the
directory listing is passed in as `scriptFiles`. -/
def LABELS_MAP (scriptFiles : List String) : List (String × List String) := [
  ("linux", [
    "linux", "ubuntu", "redhat", "mint", "centos", "red hat", "archlinux",
    "debian", "alpine", "gentoo", "fedora", "slackware", "suse", "RHEL",
    "opensuse", "manylinux", "apt ", "apt-", "rpm", "yum", "kali",
    "/sys/class", "/proc/net", "/proc/disk", "/proc/smaps",
    "/proc/vmstat"]),
  ("windows", [
    "windows", "win32", "WinError", "WindowsError", "win10", "win7",
    "win ", "mingw", "msys", "studio", "microsoft", "make.bat",
    "CloseHandle", "GetLastError", "NtQuery", "DLL", "MSVC", "TCHAR",
    "WCHAR", ".bat", "OpenProcess", "TerminateProcess", "appveyor",
    "windows error", "NtWow64", "NTSTATUS", "Visual Studio"]),
  ("macos", [
    "macos", "mac ", "osx", "os x", "mojave", "sierra", "capitan",
    "yosemite", "catalina", "mojave", "big sur", "xcode", "darwin",
    "dylib"]),
  ("aix", ["aix"]),
  ("cygwin", ["cygwin"]),
  ("freebsd", ["freebsd"]),
  ("netbsd", ["netbsd"]),
  ("openbsd", ["openbsd"]),
  ("sunos", ["sunos", "solaris"]),
  ("wsl", ["wsl"]),
  ("unix", [
    "psposix", "_psutil_posix", "waitpid", "statvfs", "/dev/tty",
    "/dev/pts"]),
  ("pypy", ["pypy"]),
  ("enhancement", ["enhancement"]),
  ("memleak", ["memory leak", "leaks memory", "memleak", "mem leak"]),
  ("api", ["idea", "proposal", "api", "feature"]),
  ("performance", ["performance", "speedup", "speed up", "slow", "fast"]),
  ("wheels", ["wheel", "wheels"]),
  ("scripts", [
    "example script", "examples script", "example dir", "scripts/"]
    ++ scriptFiles.filter (fun x => x.endsWith ".py")),
  ("bug", [
    "fail", "can\x27t execute", "can\x27t install", "cannot execute",
    "cannot install", "install error", "crash", "critical"]),
  ("doc", [
    "doc ", "document ", "documentation", "readthedocs", "pythonhosted",
    "HISTORY", "README", "dev guide", "devguide", "sphinx", "docfix",
    "index.rst"]),
  ("tests", [
    " test ", "tests", "travis", "coverage", "cirrus", "appveyor",
    "continuous integration", "unittest", "pytest", "unit test"]),
  ("priority-high", [
    "WinError", "WindowsError", "RuntimeError", "ZeroDivisionError",
    "SystemError", "MemoryError", "core dumped",
    "segfault", "segmentation fault"])]

/-- `ILLOGICAL_PAIRS` from the source: the static incompatibility table. -/
def ILLOGICAL_PAIRS : List (String × String) := [
  ("bug", "enhancement"),
  ("doc", "tests"),
  ("scripts", "doc"),
  ("scripts", "tests"),
  ("bsd", "freebsd"),
  ("bsd", "openbsd"),
  ("bsd", "netbsd")]

/-- `has_label(issue, label)` from the source: membership of `label` in the
item's currently assigned label names. -/
def has_label (labels : List String) (label : String) : Bool :=
  labels.contains label

/-- The inner `should_add(issue, label)` of `add_label` from the source: when
the label is already present, log (a well-formed `%r` format) and return
`False`; when some illogical pair `(left, right)` has `label == left` with
`right` already attached, the branch evaluates `"already has label" % (label)`
— a `%`-format with no conversion specifier — and raises `TypeError` instead
of returning (modelled as `none`); otherwise return
`not has_label(issue, label)`. -/
def should_add (labels : List String) (label : String) : Option Bool :=
  if has_label labels label then some false
  else if ILLOGICAL_PAIRS.any (fun p => label == p.1 && has_label labels p.2) then none
  else some (! has_label labels label)

/-- `add_label(issue, label)` from the source: a `TypeError` raised by the
guard propagates (`none`); a clean `False` leaves the item unchanged with no
external call; a clean `True` attaches the label through the external API
(`issue.add_to_labels`), modelled as appending it to the label set and
recording one `addCall`. -/
def add_label (labels : List String) (label : String) :
    Option (List String × List Effect) :=
  match should_add labels label with
  | none => none
  | some false => some (labels, [])
  | some true => some (labels ++ [label], [Effect.addCall label])

/-- Two back-to-back invocations of `add_label` with the same label on the
same item, the second running only when the first returned; yields the
concatenated trace of external add calls, or `none` when an invocation
raised `TypeError`. -/
def add_label_twice (labels : List String) (l : String) : Option (List Effect) :=
  match add_label labels l with
  | none => none
  | some (ls1, t1) =>
    match add_label ls1 l with
    | none => none
    | some (_, t2) => some (t1 ++ t2)

/-- Outcome of a run fragment.  `ok` carries the label set and the effect
trace; `crashed` marks that a `TypeError` propagated out of the fragment,
aborting all further processing, and carries the label set and the effects
issued before the crash. -/
inductive RunOutcome where
  | ok : List String → List Effect → RunOutcome
  | crashed : List String → List Effect → RunOutcome
deriving DecidableEq

/-- The label set carried by an outcome. -/
def labels_of : RunOutcome → List String
  | RunOutcome.ok ls _ => ls
  | RunOutcome.crashed ls _ => ls

/-- One `add_label` invocation within a sequence: a crash that already
happened short-circuits; an invocation that raises turns the outcome into
`crashed`. -/
def step_add_label (r : RunOutcome) (label : String) : RunOutcome :=
  match r with
  | RunOutcome.crashed ls tr => RunOutcome.crashed ls tr
  | RunOutcome.ok ls tr =>
    match add_label ls label with
    | none => RunOutcome.crashed ls tr
    | some (ls2, t2) => RunOutcome.ok ls2 (tr ++ t2)

/-- A sequence of `add_label` invocations, threading the label set,
accumulating the effect trace, and aborting at the first raised
`TypeError`. -/
def run_add_labels (r : RunOutcome) (props : List String) : RunOutcome :=
  props.foldl step_add_label r

/-- `_guess_labels_from_text(issue, text)` from the source: for each rule
`(label, keywords)` of the catalog, in order, yield `(label, keyword)` for
every keyword whose lower-cased form is a substring of the lower-cased
text. -/
def guess_labels_from_text (rules : List (String × List String)) (text : List Char) :
    List (String × String) :=
  rules.flatMap fun rule =>
    (rule.2.filter fun kw => contains_sub (lower_chars text) (lower_chars kw.toList)).map
      fun kw => (rule.1, kw)

/-- `add_labels_from_text(issue, text)` from the source: run `add_label` on
the label of every pair yielded by `_guess_labels_from_text`. -/
def add_labels_from_text (rules : List (String × List String))
    (r : RunOutcome) (text : List Char) : RunOutcome :=
  run_add_labels r ((guess_labels_from_text rules text).map Prod.fst)

/-- The characters of a text up to and including its first newline, or `none`
when the text contains no newline.  This is the `.*?\n` part of the
template-line regexes (lazy `.` does not cross a newline, so the match ends
at the first newline). -/
def take_through_newline : List Char → Option (List Char)
  | [] => none
  | c :: rest =>
    if c = '\n' then some [c]
    else match take_through_newline rest with
      | some l => some (c :: l)
      | none => none

/-- `re.search` of a regex of the shape `literal-pre .*?\n` over `text`:
scan start positions left to right; at the first position where the literal
occurs and the rest of that line is terminated by a newline, return the
matched text (the literal, the rest of the line, and the newline); otherwise
keep scanning; `none` when no position matches. -/
def re_search_line (pat : List Char) : List Char → Option (List Char)
  | [] => none
  | c :: rest =>
    if pat.isPrefixOf (c :: rest) then
      match take_through_newline ((c :: rest).drop pat.length) with
      | some mid => some (pat ++ mid)
      | none => re_search_line pat rest
    else re_search_line pat rest

/-- The literal part of the regex `\* OS:.*?\n` from the source. -/
def OS_LINE_PAT : List Char := "* OS:".toList

/-- The literal part of the regex `\* Bug fix:.*?\n` from the source. -/
def BUGFIX_LINE_PAT : List Char := "* Bug fix:".toList

/-- The literal part of the regex `\* Type:.*?\n` from the source. -/
def TYPE_LINE_PAT : List Char := "* Type:".toList

/-- The seven substrings the `* Type:` block of `add_labels_from_new_body`
tests for; each one found proposes the like-named label. -/
def TYPE_KEYWORDS : List String :=
  ["doc", "performance", "scripts", "tests", "wheels", "new-api", "new-platform"]

/-- The labels the `* OS:` block of `add_labels_from_new_body` proposes: when
the `* OS: ...` line is found, the full label inference re-runs on the
matched line and every inferred label is passed to `add_label`. -/
def os_line_props (rules : List (String × List String)) (text : List Char) :
    List String :=
  match re_search_line OS_LINE_PAT text with
  | some m => (guess_labels_from_text rules m).map Prod.fst
  | none => []

/-- The labels the `* Bug fix:` block of `add_labels_from_new_body` proposes:
only on a PR, only when the `* Bug fix: ...` line is found, and only when
neither `bug` nor `enhancement` is attached; then `bug` if the lower-cased
matched line contains `yes`, else `enhancement`.  `labels` is the item's
label set at the moment the block's checks run. -/
def bugfix_line_props (isPR : Bool) (labels : List String) (text : List Char) :
    List String :=
  match re_search_line BUGFIX_LINE_PAT text with
  | some m =>
    if isPR && ! has_label labels "bug" && ! has_label labels "enhancement" then
      if contains_sub (lower_chars m) ("yes".toList) then ["bug"] else ["enhancement"]
    else []
  | none => []

/-- The labels the `* Type:` block of `add_labels_from_new_body` proposes:
when the `* Type: ...` line is found, each of the seven type keywords is
tested independently against the lower-cased matched line, in source
order. -/
def type_line_props (text : List Char) : List String :=
  match re_search_line TYPE_LINE_PAT text with
  | some m =>
    (if contains_sub (lower_chars m) ("doc".toList) then ["doc"] else []) ++
    (if contains_sub (lower_chars m) ("performance".toList) then ["performance"] else []) ++
    (if contains_sub (lower_chars m) ("scripts".toList) then ["scripts"] else []) ++
    (if contains_sub (lower_chars m) ("tests".toList) then ["tests"] else []) ++
    (if contains_sub (lower_chars m) ("wheels".toList) then ["wheels"] else []) ++
    (if contains_sub (lower_chars m) ("new-api".toList) then ["new-api"] else []) ++
    (if contains_sub (lower_chars m) ("new-platform".toList) then ["new-platform"] else [])
  | none => []

/-- `add_labels_from_new_body(issue, text)` from the source: the `* OS:`
block, then the `* Bug fix:` block (whose label checks see the labels the
`* OS:` block attached), then the `* Type:` block, each proposing its labels
to `add_label` in order; a `TypeError` raised in an earlier block aborts the
later ones. -/
def add_labels_from_new_body (rules : List (String × List String)) (isPR : Bool)
    (r : RunOutcome) (text : List Char) : RunOutcome :=
  let r1 := run_add_labels r (os_line_props rules text)
  let r2 := run_add_labels r1 (bugfix_line_props isPR (labels_of r1) text)
  run_add_labels r2 (type_line_props text)

/-- Python `body.replace(' ', '')`: remove every space character (and only
space characters). -/
def remove_spaces (s : List Char) : List Char := s.filter fun c => c ≠ ' '

/-- The condition of `on_new_issue` from the source: the lower-cased title or
body contains `missing python.h` or `python.h: no such file or directory`,
or the body with spaces removed contains the compiler-error signature
`#include<Python.h>` followed by a newline (either `\n` or `\r\n`) and the
caret marker `^~~~`. -/
def missing_header_detected (title body : List Char) : Bool :=
  let lt := lower_chars title
  let lb := lower_chars body
  (contains_sub lt ("missing python.h".toList) ||
    contains_sub lb ("missing python.h".toList)) ||
  (contains_sub lt ("python.h: no such file or directory".toList) ||
    contains_sub lb ("python.h: no such file or directory".toList)) ||
  contains_sub (remove_spaces body) ("#include<Python.h>\n^~~~".toList) ||
  contains_sub (remove_spaces body) ("#include<Python.h>\r\n^~~~".toList)

/-- The detector condition as claim C3 states it, for comparison with
`missing_header_detected`: the compiler-error signature is also accepted in
the title (the claim says "the title/body contains ... the literal substring
`#include<Python.h>` ..."), whereas the source checks it against the body
only. -/
def missing_header_claimed (title body : List Char) : Bool :=
  let lt := lower_chars title
  let lb := lower_chars body
  (contains_sub lt ("missing python.h".toList) ||
    contains_sub lb ("missing python.h".toList)) ||
  (contains_sub lt ("python.h: no such file or directory".toList) ||
    contains_sub lb ("python.h: no such file or directory".toList)) ||
  contains_sub (remove_spaces title) ("#include<Python.h>\n^~~~".toList) ||
  contains_sub (remove_spaces title) ("#include<Python.h>\r\n^~~~".toList) ||
  contains_sub (remove_spaces body) ("#include<Python.h>\n^~~~".toList) ||
  contains_sub (remove_spaces body) ("#include<Python.h>\r\n^~~~".toList)

/-- `REPLY_MISSING_PYTHON_HEADERS` from the source (the backslash line
continuations of the Python triple-quoted literal resolved). -/
def REPLY_MISSING_PYTHON_HEADERS : String :=
  "It looks like you\x27re missing `Python.h` headers. This usually means you have to install them first, then retry psutil installation.\nPlease read [INSTALL](https://github.com/giampaolo/psutil/blob/master/INSTALL.rst) instructions for your platform. This is an auto-generated response based on the text you submitted. If this was a mistake or you think there\x27s a bug with psutil installation process, please add a comment to reopen this issue.\n"

/-- `on_new_issue(issue)` from the source: when the missing-header condition
holds, post the canned reply as a comment and then set the issue's state to
closed, in that order; otherwise do nothing. -/
def on_new_issue (title body : List Char) : List Effect :=
  if missing_header_detected title body then
    [Effect.comment REPLY_MISSING_PYTHON_HEADERS, Effect.close]
  else []

/-- `is_new(issue)` from the source: the item has zero comments. -/
def is_new (comments : Nat) : Bool := comments == 0

/-- `main()` from the source, after the item has been fetched.  When the item
is new, run title inference, then body template extraction, then (for issues
only) `on_new_issue`; `on_new_pr` is a no-op; a `TypeError` raised during
label processing aborts before `on_new_issue`.  When the item already has
comments, the source first evaluates `"new comment: \n" % issue.body` — a
`%`-format with no conversion specifier — which raises `TypeError` on every
comment event, before the (no-op) `on_new_comment` hook is reached. -/
def main (rules : List (String × List String)) (isPR : Bool) (comments : Nat)
    (title body : List Char) (labels : List String) : RunOutcome :=
  if is_new comments then
    let r1 := add_labels_from_text rules (RunOutcome.ok labels []) title
    match add_labels_from_new_body rules isPR r1 body with
    | RunOutcome.crashed ls tr => RunOutcome.crashed ls tr
    | RunOutcome.ok ls tr =>
      if ! isPR then RunOutcome.ok ls (tr ++ on_new_issue title body)
      else RunOutcome.ok ls tr
  else RunOutcome.crashed labels []

/-! ### Helper lemmas -/

/-- `contains_sub` decides the infix (substring) relation. -/
theorem contains_sub_iff {hay needle : List Char} :
    contains_sub hay needle = true ↔ needle <:+: hay := by
  rw [contains_sub, List.any_eq_true]
  constructor
  · rintro ⟨t, ht, hp⟩
    have h1 : t <:+ hay := (List.mem_tails _ _).mp ht
    have h2 := List.isPrefixOf_iff_prefix.mp hp
    exact List.infix_iff_prefix_suffix.mpr ⟨t, h2, h1⟩
  · intro h
    obtain ⟨t, h2, h1⟩ := List.infix_iff_prefix_suffix.mp h
    exact ⟨t, (List.mem_tails _ _).mpr h1, List.isPrefixOf_iff_prefix.mpr h2⟩

/-- `has_label` decides membership in the label set. -/
theorem has_label_iff {labels : List String} {l : String} :
    has_label labels l = true ↔ l ∈ labels := by
  show labels.elem l = true ↔ l ∈ labels
  exact List.elem_iff

/-- `take_through_newline` fails exactly on newline-free texts. -/
theorem take_through_newline_eq_none_iff (l : List Char) :
    take_through_newline l = none ↔ '\n' ∉ l := by
  induction l with
  | nil => simp [take_through_newline]
  | cons c rest ih =>
    by_cases hc : c = '\n'
    · subst hc; simp [take_through_newline]
    · rw [take_through_newline, if_neg hc]
      cases h : take_through_newline rest with
      | some m =>
        have hmem : '\n' ∈ rest := by
          by_contra hn
          rw [ih.mpr hn] at h
          cases h
        simp [hmem]
      | none =>
        have hn : '\n' ∉ rest := ih.mp h
        have hc2 : ¬ ('\n' = c) := fun hh => hc hh.symm
        simp [hn, hc2]

/-- `take_through_newline` succeeds exactly on texts containing a newline. -/
theorem take_through_newline_isSome_iff (l : List Char) :
    (take_through_newline l).isSome = true ↔ '\n' ∈ l := by
  cases h : take_through_newline l with
  | none => simp [(take_through_newline_eq_none_iff l).mp h]
  | some m =>
    simp only [Option.isSome_some, true_iff]
    by_contra hn
    rw [(take_through_newline_eq_none_iff l).mpr hn] at h
    cases h

/-- When every occurrence of the literal `pat` in `text` has no newline after
it, the regex `pat .*?\n` does not match. -/
theorem re_search_line_eq_none {pat : List Char} :
    ∀ {text : List Char}, (∀ a b, text = a ++ pat ++ b → '\n' ∉ b) →
      re_search_line pat text = none := by
  intro text
  induction text with
  | nil => intro _; rfl
  | cons c rest ih =>
    intro h
    have hrest : ∀ a b, rest = a ++ pat ++ b → '\n' ∉ b := by
      intro a b heq
      exact h (c :: a) b (by rw [heq]; rfl)
    by_cases hp : pat.isPrefixOf (c :: rest) = true
    · obtain ⟨b0, hb0⟩ := List.isPrefixOf_iff_prefix.mp hp
      have hnotb0 : '\n' ∉ b0 := h [] b0 (by rw [← hb0]; rfl)
      have hdrop : (c :: rest).drop pat.length = b0 := by
        rw [← hb0]; exact List.drop_left _ _
      have hnone : take_through_newline ((c :: rest).drop pat.length) = none := by
        rw [hdrop]; exact (take_through_newline_eq_none_iff _).mpr hnotb0
      rw [re_search_line, if_pos hp, hnone]
      exact ih hrest
    · rw [re_search_line, if_neg hp]
      exact ih hrest

/-- When `text` contains an occurrence of the literal `pat` with a newline
somewhere after it, the regex `pat .*?\n` matches. -/
theorem re_search_line_isSome (pat : List Char) :
    ∀ (a b text : List Char), text = a ++ pat ++ b → '\n' ∈ b →
      ∃ m, re_search_line pat text = some m := by
  intro a
  induction a with
  | nil =>
    intro b text heq hnl
    simp only [List.nil_append] at heq
    subst heq
    cases hpb : pat ++ b with
    | nil =>
      exfalso
      have hb : b = [] := (List.append_eq_nil.mp hpb).2
      rw [hb] at hnl
      cases hnl
    | cons c rest =>
      have hp : pat.isPrefixOf (c :: rest) = true :=
        List.isPrefixOf_iff_prefix.mpr ⟨b, hpb⟩
      have hdrop : (c :: rest).drop pat.length = b := by
        rw [← hpb]; exact List.drop_left _ _
      have hsome : (take_through_newline ((c :: rest).drop pat.length)).isSome = true := by
        rw [hdrop]; exact (take_through_newline_isSome_iff b).mpr hnl
      obtain ⟨mid, hmid⟩ := Option.isSome_iff_exists.mp hsome
      exact ⟨pat ++ mid, by rw [re_search_line, if_pos hp, hmid]⟩
  | cons x a' ih =>
    intro b text heq hnl
    subst heq
    have hform : (x :: a') ++ pat ++ b = x :: (a' ++ pat ++ b) := rfl
    rw [hform]
    by_cases hp : pat.isPrefixOf (x :: (a' ++ pat ++ b)) = true
    · cases httn : take_through_newline ((x :: (a' ++ pat ++ b)).drop pat.length) with
      | some mid =>
        exact ⟨pat ++ mid, by rw [re_search_line, if_pos hp, httn]⟩
      | none =>
        exfalso
        have h1 : '\n' ∉ (x :: (a' ++ pat ++ b)).drop pat.length :=
          (take_through_newline_eq_none_iff _).mp httn
        apply h1
        have e1 : x :: (a' ++ pat ++ b) = ((x :: a') ++ pat) ++ b := rfl
        have e2 : (((x :: a') ++ pat) ++ b).drop ((x :: a') ++ pat).length = b :=
          List.drop_left _ _
        have e3 : (((x :: a') ++ pat) ++ b).drop ((x :: a') ++ pat).length =
            ((((x :: a') ++ pat) ++ b).drop pat.length).drop (x :: a').length := by
          rw [List.drop_drop]
          congr 1
          simp only [List.length_append, List.length_cons]
          omega
        have hmem : '\n' ∈ ((((x :: a') ++ pat) ++ b).drop pat.length).drop (x :: a').length := by
          rw [← e3, e2]; exact hnl
        have := List.drop_subset (x :: a').length
            ((((x :: a') ++ pat) ++ b).drop pat.length) hmem
        rw [e1]
        exact this
    · obtain ⟨m, hm⟩ := ih b (a' ++ pat ++ b) rfl hnl
      exact ⟨m, by rw [re_search_line, if_neg hp]; exact hm⟩

/-- Membership characterization of the label inference engine. -/
theorem guess_labels_mem_iff (rules : List (String × List String)) (text : List Char)
    (label keyword : String) :
    (label, keyword) ∈ guess_labels_from_text rules text ↔
      ∃ kws, (label, kws) ∈ rules ∧ keyword ∈ kws ∧
        contains_sub (lower_chars text) (lower_chars keyword.toList) = true := by
  simp only [guess_labels_from_text, List.mem_flatMap, List.mem_map, List.mem_filter,
    Prod.mk.injEq]
  constructor
  · rintro ⟨⟨l, kws⟩, hrule, kw, ⟨hkw, hc⟩, h1, h2⟩
    subst h1; subst h2
    exact ⟨kws, hrule, hkw, hc⟩
  · rintro ⟨kws, hr, hk, hc⟩
    exact ⟨(label, kws), hr, keyword, ⟨hk, hc⟩, rfl, rfl⟩

/-- A text with no newline leaves every decomposition suffix newline-free. -/
theorem no_newline_in_parts {t : List Char} (h : '\n' ∉ t) (p : List Char) :
    ∀ a b, t = a ++ p ++ b → '\n' ∉ b := by
  intro a b heq hmem
  apply h
  rw [heq]
  exact List.mem_append_right _ hmem

/-! ### Claims -/

/-- Claim C1: the label inference engine yields the pair `(label, keyword)`
iff the lower-cased keyword occurs as a substring of the lower-cased text for
some keyword listed under the label in the catalog; and, for a catalog whose
keywords are all non-empty (as the bot's catalog is), the empty text yields
no pairs. -/
theorem claim_C1_label_inference (rules : List (String × List String))
    (text : List Char) (label keyword : String) :
    ((label, keyword) ∈ guess_labels_from_text rules text ↔
      ∃ kws, (label, kws) ∈ rules ∧ keyword ∈ kws ∧
        contains_sub (lower_chars text) (lower_chars keyword.toList) = true) ∧
    ((∀ p ∈ rules, ∀ kw ∈ p.2, kw.toList ≠ []) →
      guess_labels_from_text rules [] = []) := by
  refine ⟨guess_labels_mem_iff rules text label keyword, ?_⟩
  intro hne
  rw [List.eq_nil_iff_forall_not_mem]
  rintro ⟨l, k⟩ hmem
  obtain ⟨kws, hr, hk, hc⟩ := (guess_labels_mem_iff rules [] l k).mp hmem
  have hinf : lower_chars k.toList <:+: lower_chars [] := contains_sub_iff.mp hc
  have hnil : lower_chars k.toList = [] :=
    List.infix_nil.mp (by simpa [lower_chars] using hinf)
  have hlen : k.toList.length = 0 := by
    have h2 := congrArg List.length hnil
    simpa [lower_chars] using h2
  exact hne (l, kws) hr k hk (List.length_eq_zero.mp hlen)

/-- Witness for claim C1, at the bot's own catalog. -/
theorem claim_C1_witness :
    (("linux", "ubuntu") ∈
        guess_labels_from_text (LABELS_MAP []) ("So Ubuntu 20.04 crashed".toList) ↔
      ∃ kws, ("linux", kws) ∈ LABELS_MAP [] ∧ "ubuntu" ∈ kws ∧
        contains_sub (lower_chars ("So Ubuntu 20.04 crashed".toList))
          (lower_chars "ubuntu".toList) = true) ∧
    guess_labels_from_text (LABELS_MAP []) [] = [] :=
  ⟨(claim_C1_label_inference (LABELS_MAP []) ("So Ubuntu 20.04 crashed".toList)
      "linux" "ubuntu").1,
   (claim_C1_label_inference (LABELS_MAP []) [] "linux" "ubuntu").2 (by decide)⟩

/-- Claim C2 (code bug): the illogical-pair branch of the guard does not
reject cleanly.  At the moment `bug` is proposed on an item that already
carries `enhancement`, the pair `("bug", "enhancement")` fires, and the
branch's `%`-format with no conversion specifier raises `TypeError`, aborting
the whole run instead of logging and skipping as the specification
describes — the evaluation below traces that input through the faithful
guard. -/
theorem claim_C2_pair_guard_crash :
    ("bug", "enhancement") ∈ ILLOGICAL_PAIRS ∧
    has_label ["enhancement"] "enhancement" = true ∧
    has_label ["enhancement"] "bug" = false ∧
    should_add ["enhancement"] "bug" = none ∧
    add_label ["enhancement"] "bug" = none ∧
    run_add_labels (RunOutcome.ok ["enhancement"] []) ["bug", "linux"] =
      RunOutcome.crashed ["enhancement"] [] := by
  decide

/-- Counterexample to claim C3 as stated: an issue whose title alone carries
the compiler-error signature satisfies the claim's trigger condition, yet the
bot's detector does not fire, because the source checks the signature against
the body only. -/
theorem claim_C3_counterexample :
    missing_header_claimed ("#include<Python.h>\n^~~~".toList) [] = true ∧
    missing_header_detected ("#include<Python.h>\n^~~~".toList) [] = false := by
  decide

/-- Claim C3 (amended): the missing-header detector fires iff the lower-cased
title or body contains "missing python.h" or "python.h: no such file or
directory", or the body (not the title), after removal of space characters,
contains the literal compiler-error signature under either line-ending
convention. -/
theorem claim_C3_amended (title body : List Char) :
    missing_header_detected title body = true ↔
      ("missing python.h".toList <:+: lower_chars title ∨
       "missing python.h".toList <:+: lower_chars body ∨
       "python.h: no such file or directory".toList <:+: lower_chars title ∨
       "python.h: no such file or directory".toList <:+: lower_chars body ∨
       "#include<Python.h>\n^~~~".toList <:+: remove_spaces body ∨
       "#include<Python.h>\r\n^~~~".toList <:+: remove_spaces body) := by
  simp only [missing_header_detected, Bool.or_eq_true, contains_sub_iff]
  tauto

set_option maxHeartbeats 1600000 in
/-- Claim C4 (code bug): a new issue that matches the missing-header detector
need not receive the canned reply and the close.  When title inference
proposes a pair-blocked label, the guard raises `TypeError` and the run
aborts before `on_new_issue` ever runs: here the title `fail` proposes `bug`
against an item carrying `enhancement`, so the run crashes having issued no
effect at all — no comment, no state change — although the body matches the
detector. -/
theorem claim_C4_inference_crash_blocks_reply :
    missing_header_detected ("fail".toList) ("missing Python.h".toList) = true ∧
    main (LABELS_MAP []) false 0 ("fail".toList) ("missing Python.h".toList)
      ["enhancement"] = RunOutcome.crashed ["enhancement"] [] := by
  decide

/-- Claim C5: on a PR whose body has a newline-terminated `* Bug fix: ...`
line and which carries neither `bug` nor `enhancement`, exactly one label is
proposed — `bug` when the matched line case-insensitively contains `yes`,
`enhancement` otherwise; on issues, or when either label is already present,
this rule proposes nothing. -/
theorem claim_C5_bugfix_line (labels : List String) (text a b : List Char)
    (heq : text = a ++ BUGFIX_LINE_PAT ++ b) (hnl : '\n' ∈ b)
    (hbug : has_label labels "bug" = false)
    (henh : has_label labels "enhancement" = false) :
    (∃ m, re_search_line BUGFIX_LINE_PAT text = some m ∧
       bugfix_line_props true labels text =
         [if contains_sub (lower_chars m) ("yes".toList) then "bug" else "enhancement"]) ∧
    (∀ labels2 text2, bugfix_line_props false labels2 text2 = []) ∧
    (∀ labels2 text2,
       (has_label labels2 "bug" || has_label labels2 "enhancement") = true →
       bugfix_line_props true labels2 text2 = []) := by
  refine ⟨?_, ?_, ?_⟩
  · obtain ⟨m, hm⟩ := re_search_line_isSome BUGFIX_LINE_PAT a b text heq hnl
    refine ⟨m, hm, ?_⟩
    simp only [bugfix_line_props, hm, hbug, henh, Bool.not_false, Bool.and_self,
      Bool.true_and, Bool.and_true, if_true]
    cases hc : contains_sub (lower_chars m) ("yes".toList) <;> simp [hc]
  · intro labels2 text2
    cases h : re_search_line BUGFIX_LINE_PAT text2 <;>
      simp [bugfix_line_props, h]
  · intro labels2 text2 hor
    cases h : re_search_line BUGFIX_LINE_PAT text2 with
    | none => simp [bugfix_line_props, h]
    | some m =>
      cases hb : has_label labels2 "bug" with
      | true => simp [bugfix_line_props, h, hb]
      | false =>
        have he2 : has_label labels2 "enhancement" = true := by
          simpa [hb] using hor
        simp [bugfix_line_props, h, hb, he2]

/-- Witness for claim C5. -/
theorem claim_C5_witness :
    (∃ m, re_search_line BUGFIX_LINE_PAT ("* Bug fix: yes\n".toList) = some m ∧
       bugfix_line_props true [] ("* Bug fix: yes\n".toList) =
         [if contains_sub (lower_chars m) ("yes".toList) then "bug" else "enhancement"]) ∧
    (∀ labels2 text2, bugfix_line_props false labels2 text2 = []) ∧
    (∀ labels2 text2,
       (has_label labels2 "bug" || has_label labels2 "enhancement") = true →
       bugfix_line_props true labels2 text2 = []) :=
  claim_C5_bugfix_line [] ("* Bug fix: yes\n".toList) [] (" yes\n".toList)
    (by decide) (by decide) (by decide) (by decide)

set_option maxHeartbeats 1600000 in
/-- Claim C6: when the body has a newline-terminated `* Type: ...` line, the
proposed labels are exactly the type keywords occurring as substrings of the
lower-cased matched line, tested independently; in particular a body with the
line `* Type: doc, tests` proposes both `doc` and `tests`. -/
theorem claim_C6_type_line (text a b : List Char)
    (heq : text = a ++ TYPE_LINE_PAT ++ b) (hnl : '\n' ∈ b) :
    (∃ m, re_search_line TYPE_LINE_PAT text = some m ∧
       type_line_props text =
         TYPE_KEYWORDS.filter fun k => contains_sub (lower_chars m) k.toList) ∧
    ("doc" ∈ type_line_props ("* Type: doc, tests\n".toList) ∧
     "tests" ∈ type_line_props ("* Type: doc, tests\n".toList)) := by
  refine ⟨?_, by decide⟩
  obtain ⟨m, hm⟩ := re_search_line_isSome TYPE_LINE_PAT a b text heq hnl
  refine ⟨m, hm, ?_⟩
  simp only [type_line_props, hm, TYPE_KEYWORDS, List.filter_cons, List.filter_nil]
  split_ifs <;> rfl

set_option maxHeartbeats 1600000 in
/-- Witness for claim C6. -/
theorem claim_C6_witness :
    (∃ m, re_search_line TYPE_LINE_PAT ("* Type: doc, tests\n".toList) = some m ∧
       type_line_props ("* Type: doc, tests\n".toList) =
         TYPE_KEYWORDS.filter fun k => contains_sub (lower_chars m) k.toList) ∧
    ("doc" ∈ type_line_props ("* Type: doc, tests\n".toList) ∧
     "tests" ∈ type_line_props ("* Type: doc, tests\n".toList)) :=
  claim_C6_type_line ("* Type: doc, tests\n".toList) [] (" doc, tests\n".toList)
    (by decide) (by decide)

/-- Counterexample to claim C7 as stated: on an item that already carries the
label, both invocations of `add_label` reject cleanly and issue zero external
add calls, not exactly one. -/
theorem claim_C7_counterexample :
    add_label_twice ["bug"] "bug" = some [] ∧
    some ([] : List Effect) ≠ some [Effect.addCall "bug"] := by
  decide

/-- Claim C7 (amended): invoking `add_label` twice with the same label, the
external state between the calls changed only by the first call, issues at
most one external add call, and exactly one precisely when the first
invocation's guard accepts (the second invocation is then rejected cleanly
because the label is already present, and performs no call); when the label
was already present initially, both invocations reject cleanly with no call;
and when an illogical pair blocks the proposal, the invocation raises
`TypeError` instead of returning. -/
theorem claim_C7_amended (labels : List String) (l : String) :
    (∀ t, add_label_twice labels l = some t → t.length ≤ 1) ∧
    (should_add labels l = some true →
      add_label_twice labels l = some [Effect.addCall l]) ∧
    (has_label labels l = true → add_label_twice labels l = some []) ∧
    (∀ ls1 t1, add_label labels l = some (ls1, t1) →
      add_label ls1 l = some (ls1, [])) ∧
    (should_add labels l = none → add_label_twice labels l = none) := by
  by_cases hl : has_label labels l = true
  · have hsa : should_add labels l = some false := by
      simp [should_add, hl]
    have h1 : add_label labels l = some (labels, []) := by
      simp [add_label, hsa]
    have h2 : add_label_twice labels l = some [] := by
      simp [add_label_twice, h1]
    refine ⟨?_, ?_, ?_, ?_, ?_⟩
    · intro t ht
      rw [h2] at ht
      simp only [Option.some.injEq] at ht
      subst ht
      simp
    · intro hq
      rw [hsa] at hq
      simp at hq
    · intro _
      exact h2
    · intro ls1 t1 hadd
      rw [h1] at hadd
      simp only [Option.some.injEq, Prod.mk.injEq] at hadd
      obtain ⟨hls, _⟩ := hadd
      subst hls
      exact h1
    · intro hq
      rw [hsa] at hq
      simp at hq
  · have hlf : has_label labels l = false := by
      cases hv : has_label labels l
      · rfl
      · exact absurd hv hl
    cases hany : (ILLOGICAL_PAIRS.any fun p => l == p.1 && has_label labels p.2) with
    | true =>
      have hsa : should_add labels l = none := by
        simp [should_add, hlf, hany]
      have h1 : add_label labels l = none := by
        simp [add_label, hsa]
      have h2 : add_label_twice labels l = none := by
        simp [add_label_twice, h1]
      refine ⟨?_, ?_, ?_, ?_, ?_⟩
      · intro t ht
        rw [h2] at ht
        simp at ht
      · intro hq
        rw [hsa] at hq
        simp at hq
      · intro hc
        exact absurd hc hl
      · intro ls1 t1 hadd
        rw [h1] at hadd
        simp at hadd
      · intro _
        exact h2
    | false =>
      have hsa : should_add labels l = some true := by
        simp [should_add, hlf, hany]
      have h1 : add_label labels l = some (labels ++ [l], [Effect.addCall l]) := by
        simp [add_label, hsa]
      have hl2 : has_label (labels ++ [l]) l = true :=
        has_label_iff.mpr (List.mem_append_right _ (List.mem_singleton_self l))
      have hsa2 : should_add (labels ++ [l]) l = some false := by
        simp [should_add, hl2]
      have h12 : add_label (labels ++ [l]) l = some (labels ++ [l], []) := by
        simp [add_label, hsa2]
      have h2 : add_label_twice labels l = some [Effect.addCall l] := by
        simp [add_label_twice, h1, h12]
      refine ⟨?_, ?_, ?_, ?_, ?_⟩
      · intro t ht
        rw [h2] at ht
        simp only [Option.some.injEq] at ht
        subst ht
        simp
      · intro _
        exact h2
      · intro hc
        exact absurd hc hl
      · intro ls1 t1 hadd
        rw [h1] at hadd
        simp only [Option.some.injEq, Prod.mk.injEq] at hadd
        obtain ⟨hls, _⟩ := hadd
        subst hls
        exact h12
      · intro hq
        rw [hsa] at hq
        simp at hq

/-- Witness for claim C7 (amended). -/
theorem claim_C7_witness :
    add_label_twice [] "bug" = some [Effect.addCall "bug"] :=
  (claim_C7_amended [] "bug").2.1 (by decide)

/-- Claim C8 (code bug): an item with one or more comments is dispatched to
the comment path, but that path is not the clean no-op hook the specification
describes — before `on_new_comment` is reached, `main` evaluates
`"new comment: \n" % issue.body`, a `%`-format with no conversion specifier,
so every comment event raises `TypeError` and aborts the run (no label
addition, no comment and no state change are issued, but the run terminates
abnormally rather than completing). -/
theorem claim_C8_comment_event_crash :
    is_new 1 = false ∧
    main [] false 1 ("t".toList) ("hello".toList) ["x"] =
      RunOutcome.crashed ["x"] [] ∧
    main [] true 2 ("t".toList) ("hello".toList) ["x"] =
      RunOutcome.crashed ["x"] [] := by
  decide

/-- Counterexample to claim C9 as stated: `("scripts", "doc")` is in the
table and the item `["scripts", "tests"]` carries `scripts` but not `doc`,
yet proposing `doc` attaches nothing — the distinct pair `("doc", "tests")`
fires, and its branch raises `TypeError` (the malformed `%`-format), so the
invocation aborts instead of attaching `doc`. -/
theorem claim_C9_counterexample :
    ("scripts", "doc") ∈ ILLOGICAL_PAIRS ∧
    has_label ["scripts", "tests"] "scripts" = true ∧
    has_label ["scripts", "tests"] "doc" = false ∧
    add_label ["scripts", "tests"] "doc" = none := by
  decide

/-- Claim C9 (amended): the guard is one-directional — proposing `right` of a
pair on an item that carries `left` but not `right` attaches `right`,
provided no table pair with `right` as its left component has its partner
attached (otherwise that branch raises `TypeError` and nothing is attached);
in particular on an item carrying exactly `left` this holds for every pair of
the table, and a run from an item carrying neither label can end with both
labels of an illogical pair attached (`doc` proposed before `tests`). -/
theorem claim_C9_amended :
    (∀ (left right : String) (labels : List String),
      (left, right) ∈ ILLOGICAL_PAIRS →
      has_label labels left = true → has_label labels right = false →
      (ILLOGICAL_PAIRS.all fun q => ! (right == q.1 && has_label labels q.2)) = true →
      add_label labels right = some (labels ++ [right], [Effect.addCall right])) ∧
    (∀ p ∈ ILLOGICAL_PAIRS,
      add_label [p.1] p.2 = some ([p.1, p.2], [Effect.addCall p.2])) ∧
    (("doc", "tests") ∈ ILLOGICAL_PAIRS ∧
      run_add_labels (RunOutcome.ok [] []) ["doc", "tests"] =
        RunOutcome.ok ["doc", "tests"] [Effect.addCall "doc", Effect.addCall "tests"]) := by
  refine ⟨?_, by decide, by decide⟩
  intro left right labels _ _ hr hall
  have hany :
      (ILLOGICAL_PAIRS.any fun q => right == q.1 && has_label labels q.2) = false := by
    cases hv : (ILLOGICAL_PAIRS.any fun q => right == q.1 && has_label labels q.2) with
    | false => rfl
    | true =>
      obtain ⟨q, hq, hqv⟩ := List.any_eq_true.mp hv
      have hres := List.all_eq_true.mp hall q hq
      rw [hqv] at hres
      simp at hres
  have hsa : should_add labels right = some true := by
    simp [should_add, hr, hany]
  simp [add_label, hsa]

/-- Witness for claim C9 (amended). -/
theorem claim_C9_witness :
    add_label ["doc"] "tests" = some (["doc", "tests"], [Effect.addCall "tests"]) :=
  claim_C9_amended.1 "doc" "tests" ["doc"] (by decide) (by decide) (by decide) (by decide)

/-- Claim C10: each template-field regex requires a terminating newline — if
every occurrence of the field's literal in the body lies in an unterminated
tail (in particular, a field line at the very end of the body with no
trailing newline), the field is not matched and proposes no labels. -/
theorem claim_C10_trailing_newline_required (rules : List (String × List String))
    (isPR : Bool) (labels : List String) (text : List Char) :
    ((∀ a b, text = a ++ OS_LINE_PAT ++ b → '\n' ∉ b) →
       re_search_line OS_LINE_PAT text = none ∧ os_line_props rules text = []) ∧
    ((∀ a b, text = a ++ BUGFIX_LINE_PAT ++ b → '\n' ∉ b) →
       re_search_line BUGFIX_LINE_PAT text = none ∧
       bugfix_line_props isPR labels text = []) ∧
    ((∀ a b, text = a ++ TYPE_LINE_PAT ++ b → '\n' ∉ b) →
       re_search_line TYPE_LINE_PAT text = none ∧ type_line_props text = []) := by
  refine ⟨fun h => ?_, fun h => ?_, fun h => ?_⟩
  · have hn := re_search_line_eq_none h
    exact ⟨hn, by simp [os_line_props, hn]⟩
  · have hn := re_search_line_eq_none h
    exact ⟨hn, by simp [bugfix_line_props, hn]⟩
  · have hn := re_search_line_eq_none h
    exact ⟨hn, by simp [type_line_props, hn]⟩

/-- Witness for claim C10: template lines sitting at the very end of the body
with no trailing newline are not matched and propose nothing. -/
theorem claim_C10_witness :
    (re_search_line OS_LINE_PAT ("* OS: Linux".toList) = none ∧
     os_line_props [] ("* OS: Linux".toList) = []) ∧
    (re_search_line BUGFIX_LINE_PAT ("* Bug fix: yes".toList) = none ∧
     bugfix_line_props true [] ("* Bug fix: yes".toList) = []) ∧
    (re_search_line TYPE_LINE_PAT ("* Type: doc, tests".toList) = none ∧
     type_line_props ("* Type: doc, tests".toList) = []) :=
  ⟨(claim_C10_trailing_newline_required [] true [] ("* OS: Linux".toList)).1
      (no_newline_in_parts (by decide) OS_LINE_PAT),
   (claim_C10_trailing_newline_required [] true [] ("* Bug fix: yes".toList)).2.1
      (no_newline_in_parts (by decide) BUGFIX_LINE_PAT),
   (claim_C10_trailing_newline_required [] true [] ("* Type: doc, tests".toList)).2.2
      (no_newline_in_parts (by decide) TYPE_LINE_PAT)⟩

end PsutilBot

